import Mathlib

/-!
Verification development for the badge generator `generate_images.py` of the
`gh-stats` repository.  The script validates SVG templates, resolves
environment configuration, and renders two SVG badges (an overview badge and
a languages badge) by literal token substitution.

The definitions below are a shallow embedding of the script:

* Python strings are Lean `String`s (lists of characters); the file system is
  a partial map from paths to file contents.
* `re.sub` is embedded as `reSub`: for the literal patterns used by the
  script (no regex metacharacters are interpreted inside them), `re.sub`
  replaces every non-overlapping occurrence from the left.  Replacement
  strings produced by the script contain no backslash escapes, so the
  replacement is inserted verbatim.
* Python's `sorted(..., reverse=True, key=...)` is a stable descending sort;
  it is embedded as an insertion sort `sortD` with the same semantics
  (descending by key, ties keep the original order).
* Language percentages (`prop`) are embedded as rationals; the `%0.3f` and
  `%0.2f` float renderings are embedded as decimal rounding on rationals.
* Counts are embedded as `Nat`; `f"{n:,}"` is embedded as `fmtComma`.
* File sizes are UTF-8 byte counts of the written string.
-/

/-! ### Python string helpers -/

/-- Characters treated as whitespace by Python's `str.strip()`. -/
def pythonSpaceChars : List Char := [' ', '\t', '\n', '\r', Char.ofNat 11, Char.ofNat 12]

/-- Whether a character is Python whitespace. -/
def isPythonSpace (c : Char) : Bool := pythonSpaceChars.contains c

/-- Python `str.strip()`: remove whitespace from both ends. -/
def pyStrip (s : String) : String :=
  ⟨((s.data.dropWhile isPythonSpace).reverse.dropWhile isPythonSpace).reverse⟩

/-- Python `str.lower()` (ASCII case mapping, which covers every string the
script compares). -/
def pyLower (s : String) : String := ⟨s.data.map Char.toLower⟩

/-- Substring test on character lists: does `pat` occur in the list?
Embeds Python's `pat in content`. -/
def containsSub (pat : List Char) : List Char → Bool
  | [] => pat.isEmpty
  | c :: rest => pat.isPrefixOf (c :: rest) || containsSub pat rest

/-- Python `needle in haystack` on strings. -/
def strIn (needle haystack : String) : Bool := containsSub needle.data haystack.data

/-- Worker for `replaceAll`.  The first numeric argument is a skip counter:
after emitting a replacement the scanner must continue after the matched
pattern without rescanning it (as `re.sub` does).  The scan moves one
character per call, so the recursion is structural in the subject list. -/
def raAux (pat repl : List Char) : Nat → List Char → List Char
  | _, [] => []
  | k + 1, _ :: rest => raAux pat repl k rest
  | 0, c :: rest =>
    if pat.isPrefixOf (c :: rest) && !pat.isEmpty then
      repl ++ raAux pat repl (pat.length - 1) rest
    else
      c :: raAux pat repl 0 rest

/-- Replace every non-overlapping occurrence of `pat` (scanning from the
left) by `repl`.  This is the behaviour of `re.sub(pat, repl, s)` for the
literal patterns and backslash-free replacements used by the script. -/
def replaceAll (pat repl s : List Char) : List Char := raAux pat repl 0 s

/-- Worker for `countOccur`, with the same skip-counter scheme as `raAux`. -/
def coAux (pat : List Char) : Nat → List Char → Nat
  | _, [] => 0
  | k + 1, _ :: rest => coAux pat k rest
  | 0, c :: rest =>
    if pat.isPrefixOf (c :: rest) && !pat.isEmpty then
      1 + coAux pat (pat.length - 1) rest
    else
      coAux pat 0 rest

/-- Number of non-overlapping occurrences of `pat`, scanning from the left
(the occurrences `re.sub` replaces). -/
def countOccur (pat s : List Char) : Nat := coAux pat 0 s

/-- String-level `re.sub` for the literal patterns used by the script. -/
def reSub (pat repl s : String) : String := ⟨replaceAll pat.data repl.data s.data⟩

/-- String-level occurrence count. -/
def countOccurStr (pat s : String) : Nat := countOccur pat.data s.data

/-! ### Number formatting -/

/-- The character for a decimal digit. -/
def digitChar (d : Nat) : Char := Char.ofNat (48 + d)

/-- Decimal digits of `n`, least significant first; `fuel` bounds the
recursion depth (any `fuel > n` is enough). -/
def digitsRevAux : Nat → Nat → List Char
  | 0, _ => []
  | fuel + 1, n => if n < 10 then [digitChar n] else digitChar (n % 10) :: digitsRevAux fuel (n / 10)

/-- Decimal digits of `n`, least significant first. -/
def digitsRev (n : Nat) : List Char := digitsRevAux (n + 1) n

/-- Insert a comma after every group of three characters of a
least-significant-first digit list. -/
def group3 : List Char → List Char
  | [] => []
  | [a] => [a]
  | [a, b] => [a, b]
  | [a, b, c] => [a, b, c]
  | a :: b :: c :: d :: rest => a :: b :: c :: ',' :: group3 (d :: rest)

/-- Plain decimal rendering of a natural number. -/
def fmtNat (n : Nat) : String := ⟨(digitsRev n).reverse⟩

/-- Python `f"{n:,}"` for a non-negative integer: decimal digits with a
thousands separator every three digits. -/
def fmtComma (n : Nat) : String := ⟨(group3 (digitsRev n)).reverse⟩

/-- Zero-pad a number below 1000 to three digits. -/
def pad3 (k : Nat) : String :=
  if k < 10 then "00" ++ fmtNat k else if k < 100 then "0" ++ fmtNat k else fmtNat k

/-- Zero-pad a number below 100 to two digits. -/
def pad2 (k : Nat) : String := if k < 10 then "0" ++ fmtNat k else fmtNat k

/-- Python `f"{q:0.3f}"` for the non-negative rationals produced by the
script: round to three decimal places and render. -/
def fmtQ3 (q : ℚ) : String :=
  let t : Nat := (round (q * 1000)).toNat
  fmtNat (t / 1000) ++ "." ++ pad3 (t % 1000)

/-- Python `f"{q:0.2f}"` for the non-negative rationals produced by the
script: round to two decimal places and render. -/
def fmtQ2 (q : ℚ) : String :=
  let t : Nat := (round (q * 100)).toNat
  fmtNat (t / 100) ++ "." ++ pad2 (t % 100)

/-- UTF-8 byte count of a string: the size `os.path.getsize` reports for the
written file. -/
def utf8Len (s : String) : Nat := s.data.foldl (fun n c => n + c.utf8Size) 0

/-! ### Template validation (`validate_templates`) -/

/-- A file system: a partial map from path to text content. -/
def FS : Type := String → Option String

/-- Errors raised by the script (the spec's taxonomy for the `Exception`s
raised with the corresponding messages). -/
inductive MainError where
  | templateNotFound : String → MainError
  | missingPlaceholders : String → List String → MainError
  | missingCredential : MainError
  | missingUser : MainError
deriving DecidableEq

/-- The `required_templates` mapping of `validate_templates`. -/
def requiredTemplates : List (String × List String) :=
  [("templates/overview.svg",
    ["\x7b\x7b name \x7d\x7d", "\x7b\x7b stars \x7d\x7d", "\x7b\x7b forks \x7d\x7d",
     "\x7b\x7b contributions \x7d\x7d", "\x7b\x7b lines_changed \x7d\x7d",
     "\x7b\x7b views \x7d\x7d", "\x7b\x7b repos \x7d\x7d"]),
   ("templates/languages.svg",
    ["\x7b\x7b progress \x7d\x7d", "\x7b\x7b lang_list \x7d\x7d"])]

/-- The loop body of `validate_templates` over the remaining templates:
a missing file raises `Template file ... not found!`; otherwise the
placeholders absent from the content are collected and, if any, raised. -/
def validateGo (fs : FS) : List (String × List String) → Except MainError Unit
  | [] => Except.ok ()
  | (path, toks) :: rest =>
    match fs path with
    | none => Except.error (MainError.templateNotFound path)
    | some content =>
      let missing := toks.filter (fun t => !(strIn t content))
      if missing.isEmpty then validateGo fs rest
      else Except.error (MainError.missingPlaceholders path missing)

/-- `validate_templates`: check each required template in order. -/
def validateTemplates (fs : FS) : Except MainError Unit := validateGo fs requiredTemplates

/-! ### Statistics data model -/

/-- One value of the `languages` mapping: `{"size": .., "color": .., "prop": ..}`.
`color` is `Option` because `data.get("color")` may be `None`. -/
structure LangData where
  size : Nat
  color : Option String
  prop : ℚ
deriving DecidableEq

/-- The resolved fields of the `Stats` collaborator that the two renderers
await.  The `languages` mapping is a list of key/value pairs in dict
insertion order. -/
structure StatsData where
  name : String
  stargazers : Nat
  forks : Nat
  totalContributions : Nat
  linesChanged : Nat × Nat
  views : Nat
  allRepos : List String
  languages : List (String × LangData)

/-! ### Overview renderer (`generate_overview`) -/

/-- The seven `re.sub` substitutions of `generate_overview`, in source
order; `changed` is the sum of the two components of `lines_changed` and
the repos placeholder receives `len(repos)`. -/
def overviewSub (tpl : String) (st : StatsData) : String :=
  let o := reSub "\x7b\x7b name \x7d\x7d" st.name tpl
  let o := reSub "\x7b\x7b stars \x7d\x7d" (fmtComma st.stargazers) o
  let o := reSub "\x7b\x7b forks \x7d\x7d" (fmtComma st.forks) o
  let o := reSub "\x7b\x7b contributions \x7d\x7d" (fmtComma st.totalContributions) o
  let changed := st.linesChanged.1 + st.linesChanged.2
  let o := reSub "\x7b\x7b lines_changed \x7d\x7d" (fmtComma changed) o
  let o := reSub "\x7b\x7b views \x7d\x7d" (fmtComma st.views) o
  let o := reSub "\x7b\x7b repos \x7d\x7d" (fmtComma st.allRepos.length) o
  o

/-- Errors raised inside a renderer. -/
inductive GenError where
  | templateMissing : String → GenError
  | outputTooSmall : GenError
deriving DecidableEq

/-- `generate_overview`: read the template, substitute the seven
placeholders, write the output, and fail with `OutputTooSmall` when the
written file is smaller than 100 bytes.  Returns the written content. -/
def generateOverview (fs : FS) (st : StatsData) : Except GenError String :=
  match fs "templates/overview.svg" with
  | none => Except.error (GenError.templateMissing "templates/overview.svg")
  | some tpl =>
    let out := overviewSub tpl st
    if utf8Len out < 100 then Except.error GenError.outputTooSmall
    else Except.ok out

/-! ### Languages renderer (`generate_languages`) -/

/-- The fallback substitution of `generate_languages`: an empty mapping is
replaced by the single synthetic entry
`{"Unknown": {"size": 1, "color": "#cccccc", "prop": 100.0}}`. -/
def effectiveLanguages (langs : List (String × LangData)) : List (String × LangData) :=
  if langs.isEmpty then [("Unknown", ⟨1, some "#cccccc", 100⟩)] else langs

/-- The sort key of `sorted(languages.items(), reverse=True, key=lambda t: t[1].get("size"))`. -/
def langKey (t : String × LangData) : Nat := t.2.size

/-- Stable descending insertion: place `x` before the first element whose
key is strictly smaller, keeping it after every earlier element with an
equal or larger key. -/
def insertD {α : Type} (key : α → Nat) (x : α) : List α → List α
  | [] => [x]
  | y :: ys => if key y < key x then x :: y :: ys else y :: insertD key x ys

/-- Stable descending sort by a `Nat` key: the semantics of Python's
`sorted(..., reverse=True, key=...)` (descending by key, ties keep the
original order). -/
def sortD {α : Type} (key : α → Nat) (l : List α) : List α :=
  l.foldl (fun acc x => insertD key x acc) []

/-- `sorted_languages`: the language entries in descending size order. -/
def sortLangs (l : List (String × LangData)) : List (String × LangData) := sortD langKey l

/-- The `ratio` cascade of the loop body: it starts at `[.98, .02]`, is
overwritten by `[.99, .01]` when the percentage exceeds 50, and is
overwritten by `[1, 0]` when the entry is the last of the sorted list. -/
def ratioOf (n i : Nat) (prop : ℚ) : ℚ × ℚ :=
  let ratio : ℚ × ℚ := (98 / 100, 2 / 100)
  let ratio := if 50 < prop then (99 / 100, 1 / 100) else ratio
  let ratio := if i = n - 1 then (1, 0) else ratio
  ratio

/-- One `<span>` of the progress bar, before text rendering: its color and
the exact values whose 3-decimal renderings become the width and the
right margin. -/
structure Segment where
  color : String
  width : ℚ
  margin : ℚ
deriving DecidableEq

/-- The segment the loop appends for entry `i` of `n`: color falls back to
black, width is `ratio[0] * prop`, margin is `ratio[1] * prop`. -/
def segmentOf (n i : Nat) (e : String × LangData) : Segment :=
  let color := e.2.color.getD "#000000"
  let ratio := ratioOf n i e.2.prop
  ⟨color, ratio.1 * e.2.prop, ratio.2 * e.2.prop⟩

/-- The progress-bar fragment of `generate_languages`, one segment per
sorted entry. -/
def progressSegments (langs : List (String × LangData)) : List Segment :=
  let sl := sortLangs (effectiveLanguages langs)
  sl.enum.map (fun p => segmentOf sl.length p.1 p.2)

/-- One `<li>` of the language list, before text rendering: the staggered
animation delay `i * 150` ms, the marker color, the language name, and the
percentage whose 2-decimal rendering is shown. -/
structure LangItem where
  delay : Nat
  color : String
  lang : String
  prop : ℚ
deriving DecidableEq

/-- The language-list fragment of `generate_languages`, one item per sorted
entry, with `delay_between = 150`. -/
def langItems (langs : List (String × LangData)) : List LangItem :=
  let sl := sortLangs (effectiveLanguages langs)
  sl.enum.map (fun p => ⟨p.1 * 150, p.2.2.color.getD "#000000", p.2.1, p.2.2.prop⟩)

/-- Text of one progress-bar span. -/
def renderSegment (seg : Segment) : String :=
  "<span style=\"background-color: " ++ seg.color ++ ";width: " ++ fmtQ3 seg.width ++
    "%;margin-right: " ++ fmtQ3 seg.margin ++ "%;\" class=\"progress-item\"></span>"

/-- Text of one language-list item. -/
def renderItem (it : LangItem) : String :=
  "\n<li style=\"animation-delay: " ++ fmtNat it.delay ++ "ms;\">\n" ++
    "<svg xmlns=\"http://www.w3.org/2000/svg\" class=\"octicon\" style=\"fill:" ++ it.color ++
    ";\"\nviewBox=\"0 0 16 16\" version=\"1.1\" width=\"16\" height=\"16\"><path\n" ++
    "fill-rule=\"evenodd\" d=\"M8 4a4 4 0 100 8 4 4 0 000-8z\"></path></svg>\n" ++
    "<span class=\"lang\">" ++ it.lang ++ "</span>\n" ++
    "<span class=\"percent\">" ++ fmtQ2 it.prop ++ "%</span>\n</li>\n\n"

/-- The accumulated `progress` string of the loop. -/
def progressFragment (langs : List (String × LangData)) : String :=
  String.join ((progressSegments langs).map renderSegment)

/-- The accumulated `lang_list` string of the loop. -/
def langListFragment (langs : List (String × LangData)) : String :=
  String.join ((langItems langs).map renderItem)

/-- The output text of `generate_languages` for a given template: the
progress placeholder is substituted first, then the language list. -/
def languagesOut (tpl : String) (langs : List (String × LangData)) : String :=
  reSub "\x7b\x7b lang_list \x7d\x7d" (langListFragment langs)
    (reSub "\x7b\x7b progress \x7d\x7d" (progressFragment langs) tpl)

/-- `generate_languages`: read the template, build and substitute the two
fragments, write the output, and fail with `OutputTooSmall` when the
written file is smaller than 100 bytes.  Returns the written content. -/
def generateLanguages (fs : FS) (langs : List (String × LangData)) : Except GenError String :=
  match fs "templates/languages.svg" with
  | none => Except.error (GenError.templateMissing "templates/languages.svg")
  | some tpl =>
    let out := languagesOut tpl langs
    if utf8Len out < 100 then Except.error GenError.outputTooSmall
    else Except.ok out

/-! ### Orchestrator (`main`) -/

/-- The environment variables `main` reads; `none` models an unset
variable. -/
structure Env where
  accessToken : Option String
  githubToken : Option String
  githubActor : Option String
  excluded : Option String
  excludedLangs : Option String
  countStatsFromForks : Option String

/-- Credential resolution of `main`: `ACCESS_TOKEN` when truthy, else
`GITHUB_TOKEN` with a fallback warning (the `Bool`), else
`MissingCredential`. -/
def resolveCredential (env : Env) : Except MainError (String × Bool) :=
  let a := env.accessToken.getD ""
  if a ≠ "" then Except.ok (a, false)
  else
    let g := env.githubToken.getD ""
    if g ≠ "" then Except.ok (g, true)
    else Except.error MainError.missingCredential

/-- Parsing of `EXCLUDED` and `EXCLUDED_LANGS`: strip, and when non-empty
split on commas, strip the parts and drop empty ones; otherwise `None`. -/
def parseExcluded (v : Option String) : Option (List String) :=
  let s := pyStrip (v.getD "")
  if s ≠ "" then some (((s.splitOn ",").map pyStrip).filter (fun x => x ≠ "")) else none

/-- The truthy forms accepted for `COUNT_STATS_FROM_FORKS`. -/
def truthyValues : List String := ["true", "1", "yes", "on"]

/-- Parsing of `COUNT_STATS_FROM_FORKS`: strip the value; a truthy (that is,
non-empty) remainder is lowercased and tested for membership in
`truthyValues`, anything else resolves to `False`. -/
def considerForkedRepos (v : Option String) : Bool :=
  let env := pyStrip (v.getD "")
  if env ≠ "" then truthyValues.contains (pyLower env) else false

/-- The configuration `main` assembles before constructing `Stats` and the
HTTP session (the first point at which any network call can happen). -/
structure RunConfig where
  user : String
  accessToken : String
  usedFallbackToken : Bool
  excludeRepos : Option (List String)
  excludeLangs : Option (List String)
  considerForks : Bool
deriving DecidableEq

/-- The configuration phase of `main`, in source order: validate templates,
resolve the credential, require `GITHUB_ACTOR`, parse the optional
variables.  Only an `ok` result reaches the `Stats`/session construction,
so an error here happens before any network call. -/
def mainConfig (fs : FS) (env : Env) : Except MainError RunConfig := do
  let _ ← validateTemplates fs
  let (tok, fb) ← resolveCredential env
  let user := env.githubActor.getD ""
  if user = "" then throw MainError.missingUser
  else
    pure ⟨user, tok, fb, parseExcluded env.excluded, parseExcluded env.excludedLangs,
      considerForkedRepos env.countStatsFromForks⟩

/-- A minimal overview template containing each placeholder exactly once,
used to state the substitution behaviour of the overview renderer. -/
def overviewTestTemplate : String :=
  "\x7b\x7b name \x7d\x7d|\x7b\x7b stars \x7d\x7d|\x7b\x7b forks \x7d\x7d|" ++
    "\x7b\x7b contributions \x7d\x7d|\x7b\x7b lines_changed \x7d\x7d|" ++
    "\x7b\x7b views \x7d\x7d|\x7b\x7b repos \x7d\x7d"

/-- The sort key lifted to index-annotated elements. -/
def keyIdx {α : Type} (key : α → Nat) (p : Nat × α) : Nat := key p.2

/-- The strict order that characterises a stable descending sort on
index-annotated elements: strictly larger key first, and among equal keys
the smaller original index first. -/
def StableRel {α : Type} (key : α → Nat) (a b : Nat × α) : Prop :=
  key b.2 < key a.2 ∨ (key a.2 = key b.2 ∧ a.1 < b.1)

/-- A minimal languages template containing both placeholders. -/
def languagesTestTemplate : String :=
  "\x7b\x7b progress \x7d\x7d|\x7b\x7b lang_list \x7d\x7d"

/-- A concrete file system carrying both valid test templates. -/
def fixtureFS : FS := fun p =>
  if p = "templates/overview.svg" then some overviewTestTemplate
  else if p = "templates/languages.svg" then some languagesTestTemplate
  else none

/-- An overview template with the repos placeholder missing. -/
def overviewMissingRepos : String :=
  "\x7b\x7b name \x7d\x7d|\x7b\x7b stars \x7d\x7d|\x7b\x7b forks \x7d\x7d|" ++
    "\x7b\x7b contributions \x7d\x7d|\x7b\x7b lines_changed \x7d\x7d|" ++
    "\x7b\x7b views \x7d\x7d"

/-- A concrete file system whose overview template misses one placeholder. -/
def brokenFS : FS := fun p =>
  if p = "templates/overview.svg" then some overviewMissingRepos
  else if p = "templates/languages.svg" then some languagesTestTemplate
  else none

/-! ## Theorems -/

/-- Claim C4: for every value of `COUNT_STATS_FROM_FORKS`, the flag is true
iff the trimmed value is one of "true", "1", "yes", "on" case-insensitively;
unset, empty or any other value resolves to false. -/
theorem claim4_forks_flag (v : Option String) :
    (considerForkedRepos v = true ↔ pyLower (pyStrip (v.getD "")) ∈ truthyValues) ∧
    considerForkedRepos none = false := by
  constructor
  · by_cases h : pyStrip (v.getD "") = ""
    · simp [considerForkedRepos, h]
      decide
    · simp [considerForkedRepos, h]
  · decide

/-- Claim C5: an empty language mapping is replaced by the single synthetic
entry "Unknown" at 100 percent with the neutral color, so the rendered badge
has exactly one progress segment and one list item. -/
theorem claim5_empty_languages :
    effectiveLanguages [] = [("Unknown", ⟨1, some "#cccccc", 100⟩)] ∧
    progressSegments [] = [⟨"#cccccc", 100, 0⟩] ∧
    langItems [] = [⟨0, "#cccccc", "Unknown", 100⟩] := by
  refine ⟨rfl, ?_, ?_⟩
  · simp [progressSegments, sortLangs, sortD, insertD, effectiveLanguages, segmentOf,
      ratioOf, List.enum, List.enumFrom]
  · simp [langItems, sortLangs, sortD, insertD, effectiveLanguages, List.enum, List.enumFrom]

/-- Claim C9: with the template present, each renderer fails with
`OutputTooSmall` exactly when the written output is below 100 bytes, and
succeeds (returning the written content) when it is at least 100 bytes. -/
theorem claim9_output_size (fs : FS) (st : StatsData) (langs : List (String × LangData))
    (tplO tplL : String)
    (hO : fs "templates/overview.svg" = some tplO)
    (hL : fs "templates/languages.svg" = some tplL) :
    (generateOverview fs st = Except.error GenError.outputTooSmall ↔
      utf8Len (overviewSub tplO st) < 100) ∧
    (100 ≤ utf8Len (overviewSub tplO st) →
      generateOverview fs st = Except.ok (overviewSub tplO st)) ∧
    (generateLanguages fs langs = Except.error GenError.outputTooSmall ↔
      utf8Len (languagesOut tplL langs) < 100) ∧
    (100 ≤ utf8Len (languagesOut tplL langs) →
      generateLanguages fs langs = Except.ok (languagesOut tplL langs)) := by
  rw [generateOverview, generateLanguages, hO, hL]
  dsimp only
  refine ⟨?_, ?_, ?_, ?_⟩ <;> split_ifs with h <;> simp [h]

/-- Witness for C9 at a concrete file system with both templates present. -/
theorem claim9_output_size_witness :
    (generateOverview
        (fun p => if p = "templates/overview.svg" then some "tiny"
                  else if p = "templates/languages.svg" then some "tiny" else none)
        ⟨"", 0, 0, 0, (0, 0), 0, [], []⟩ = Except.error GenError.outputTooSmall ↔
      utf8Len (overviewSub "tiny" ⟨"", 0, 0, 0, (0, 0), 0, [], []⟩) < 100) ∧
    (100 ≤ utf8Len (overviewSub "tiny" ⟨"", 0, 0, 0, (0, 0), 0, [], []⟩) →
      generateOverview
        (fun p => if p = "templates/overview.svg" then some "tiny"
                  else if p = "templates/languages.svg" then some "tiny" else none)
        ⟨"", 0, 0, 0, (0, 0), 0, [], []⟩ =
        Except.ok (overviewSub "tiny" ⟨"", 0, 0, 0, (0, 0), 0, [], []⟩)) ∧
    (generateLanguages
        (fun p => if p = "templates/overview.svg" then some "tiny"
                  else if p = "templates/languages.svg" then some "tiny" else none) [] =
        Except.error GenError.outputTooSmall ↔
      utf8Len (languagesOut "tiny" []) < 100) ∧
    (100 ≤ utf8Len (languagesOut "tiny" []) →
      generateLanguages
        (fun p => if p = "templates/overview.svg" then some "tiny"
                  else if p = "templates/languages.svg" then some "tiny" else none) [] =
        Except.ok (languagesOut "tiny" [])) :=
  claim9_output_size _ ⟨"", 0, 0, 0, (0, 0), 0, [], []⟩ [] "tiny" "tiny" rfl rfl

/-- Claim C3: with valid templates, if neither `ACCESS_TOKEN` nor
`GITHUB_TOKEN` is set (or both are empty) the configuration phase fails with
`MissingCredential` (the network construction only happens on an `ok`
result); if `ACCESS_TOKEN` is unset or empty but `GITHUB_TOKEN` is set and
non-empty, credential resolution proceeds with `GITHUB_TOKEN` and the
fallback warning, and with a user present `main` reaches the `Stats`
construction using that token. -/
theorem claim3_credentials :
    (∀ (fs : FS) (env : Env), validateTemplates fs = Except.ok () →
      env.accessToken.getD "" = "" → env.githubToken.getD "" = "" →
      mainConfig fs env = Except.error MainError.missingCredential) ∧
    (∀ (env : Env) (t : String), env.accessToken.getD "" = "" →
      env.githubToken = some t → t ≠ "" →
      resolveCredential env = Except.ok (t, true)) ∧
    (∀ (fs : FS) (env : Env) (t u : String), validateTemplates fs = Except.ok () →
      env.accessToken.getD "" = "" → env.githubToken = some t → t ≠ "" →
      env.githubActor = some u → u ≠ "" →
      ∃ cfg, mainConfig fs env = Except.ok cfg ∧ cfg.accessToken = t ∧
        cfg.usedFallbackToken = true) := by
  refine ⟨?_, ?_, ?_⟩
  · intro fs env hT hA hG
    simp [mainConfig, hT, resolveCredential, hA, hG]
    rfl
  · intro env t hA hG hne
    simp [resolveCredential, hA, hG, hne]
  · intro fs env t u hT hA hG htne hU hune
    refine ⟨⟨u, t, true, parseExcluded env.excluded, parseExcluded env.excludedLangs,
      considerForkedRepos env.countStatsFromForks⟩, ?_, rfl, rfl⟩
    simp [mainConfig, hT, resolveCredential, hA, hG, htne, hU, hune]
    rfl

/-- Witness for C3 at a concrete file system and environments: an empty
`GITHUB_TOKEN` still yields `MissingCredential`, and a non-empty one is used
with the fallback warning. -/
theorem claim3_credentials_witness :
    mainConfig fixtureFS ⟨none, some "", none, none, none, none⟩ =
      Except.error MainError.missingCredential ∧
    resolveCredential ⟨none, some "ghtoken", none, none, none, none⟩ =
      Except.ok ("ghtoken", true) :=
  ⟨claim3_credentials.1 fixtureFS ⟨none, some "", none, none, none, none⟩ rfl rfl rfl,
   claim3_credentials.2.1 ⟨none, some "ghtoken", none, none, none, none⟩ "ghtoken" rfl rfl
     (by decide)⟩

/-- The template loop succeeds exactly when every listed template exists and
contains all its placeholders. -/
theorem validateGo_ok_iff (fs : FS) :
    ∀ rts : List (String × List String), validateGo fs rts = Except.ok () ↔
      ∀ p toks, (p, toks) ∈ rts → ∃ c, fs p = some c ∧ ∀ t ∈ toks, strIn t c = true := by
  intro rts
  induction rts with
  | nil => simp [validateGo]
  | cons hd rest ih =>
    obtain ⟨p, toks⟩ := hd
    rw [validateGo]
    cases hfs : fs p with
    | none =>
      simp only [List.mem_cons]
      constructor
      · intro h; cases h
      · intro h
        obtain ⟨c, hc, -⟩ := h p toks (Or.inl rfl)
        rw [hfs] at hc; cases hc
    | some c =>
      dsimp only
      by_cases hm : (toks.filter (fun t => !(strIn t c))).isEmpty
      · rw [if_pos hm, ih]
        have hall : ∀ t ∈ toks, strIn t c = true := by
          intro t ht
          have := List.isEmpty_iff.mp hm
          by_contra hf
          have hfalse : strIn t c = false := Bool.eq_false_iff.mpr hf
          have : t ∈ toks.filter (fun t => !(strIn t c)) :=
            List.mem_filter.mpr ⟨ht, by simp [hfalse]⟩
          simp_all
        constructor
        · intro h q qtoks hq
          rcases List.mem_cons.mp hq with h1 | h2
          · rw [Prod.mk.injEq] at h1
            obtain ⟨rfl, rfl⟩ := h1
            exact ⟨c, hfs, hall⟩
          · exact h q qtoks h2
        · intro h q qtoks hq
          exact h q qtoks (List.mem_cons_of_mem _ hq)
      · rw [if_neg hm]
        constructor
        · intro h; cases h
        · intro h
          obtain ⟨c', hc', hall⟩ := h p toks (List.mem_cons_self _ _)
          rw [hfs] at hc'
          cases hc'
          have : toks.filter (fun t => !(strIn t c)) = [] := by
            apply List.filter_eq_nil_iff.mpr
            intro t ht
            simp [hall t ht]
          simp [this] at hm

/-- A `missing placeholders` failure of the template loop reports exactly
the placeholders of that template that are absent from its content. -/
theorem validateGo_err_missing (fs : FS) :
    ∀ (rts : List (String × List String)) (p : String) (m : List String),
      validateGo fs rts = Except.error (MainError.missingPlaceholders p m) →
      ∃ toks c, (p, toks) ∈ rts ∧ fs p = some c ∧
        m = toks.filter (fun t => !(strIn t c)) := by
  intro rts
  induction rts with
  | nil => intro p m h; cases h
  | cons hd rest ih =>
    obtain ⟨q, toks⟩ := hd
    intro p m h
    rw [validateGo] at h
    cases hfs : fs q with
    | none =>
      rw [hfs] at h
      cases h
    | some c =>
      rw [hfs] at h
      dsimp only at h
      by_cases hm : (toks.filter (fun t => !(strIn t c))).isEmpty
      · rw [if_pos hm] at h
        obtain ⟨toks', c', hmem, hc', hfil⟩ := ih p m h
        exact ⟨toks', c', List.mem_cons_of_mem _ hmem, hc', hfil⟩
      · rw [if_neg hm] at h
        injection h with h'
        injection h' with h1 h2
        subst h1
        exact ⟨toks, c, List.mem_cons_self _ _, hfs, h2.symm⟩

/-- Claim C2: template validation succeeds exactly when every required file
exists and contains all its placeholder tokens, and a placeholder failure
names exactly the tokens missing from that template's content. -/
theorem claim2_validate_templates :
    (∀ fs : FS, validateTemplates fs = Except.ok () ↔
      ∀ p toks, (p, toks) ∈ requiredTemplates →
        ∃ c, fs p = some c ∧ ∀ t ∈ toks, strIn t c = true) ∧
    (∀ (fs : FS) (p : String) (m : List String),
      validateTemplates fs = Except.error (MainError.missingPlaceholders p m) →
      ∃ toks c, (p, toks) ∈ requiredTemplates ∧ fs p = some c ∧
        m = toks.filter (fun t => !(strIn t c))) :=
  ⟨fun fs => validateGo_ok_iff fs requiredTemplates,
   fun fs => validateGo_err_missing fs requiredTemplates⟩

/-- Witness for C2 at a concrete file system whose overview template lacks
the repos placeholder: validation reports exactly that token. -/
theorem claim2_validate_templates_witness :
    ∃ toks c, ("templates/overview.svg", toks) ∈ requiredTemplates ∧
      brokenFS "templates/overview.svg" = some c ∧
      ["\x7b\x7b repos \x7d\x7d"] = toks.filter (fun t => !(strIn t c)) :=
  claim2_validate_templates.2 brokenFS "templates/overview.svg"
    ["\x7b\x7b repos \x7d\x7d"] rfl

/-- Inserting with `insertD` is a permutation with pushing to the front. -/
theorem insertD_perm {α : Type} (key : α → Nat) (x : α) (l : List α) :
    List.Perm (insertD key x l) (x :: l) := by
  induction l with
  | nil => exact List.Perm.refl _
  | cons y ys ih =>
    rw [insertD]
    by_cases h : key y < key x
    · rw [if_pos h]
    · rw [if_neg h]
      exact (List.Perm.cons y ih).trans (List.Perm.swap x y ys)

/-- Membership in an `insertD` result. -/
theorem mem_insertD {α : Type} (key : α → Nat) {x z : α} {l : List α} :
    z ∈ insertD key x l ↔ z = x ∨ z ∈ l := by
  rw [(insertD_perm key x l).mem_iff]
  simp

/-- The insertion fold is a permutation of the accumulator and the input. -/
theorem sortD_foldl_perm {α : Type} (key : α → Nat) :
    ∀ (l acc : List α),
      List.Perm (List.foldl (fun a x => insertD key x a) acc l) (acc ++ l) := by
  intro l
  induction l with
  | nil => intro acc; simp
  | cons x xs ih =>
    intro acc
    rw [List.foldl_cons]
    refine (ih _).trans ?_
    refine ((insertD_perm key x acc).append_right xs).trans ?_
    exact List.perm_middle.symm

/-- `sortD` permutes its input. -/
theorem sortD_perm {α : Type} (key : α → Nat) (l : List α) :
    List.Perm (sortD key l) l := by
  simpa using sortD_foldl_perm key l []

/-- `insertD` preserves the descending pairwise order. -/
theorem insertD_pairwise_ge {α : Type} (key : α → Nat) (x : α) :
    ∀ l : List α, l.Pairwise (fun a b => key b ≤ key a) →
      (insertD key x l).Pairwise (fun a b => key b ≤ key a) := by
  intro l
  induction l with
  | nil => intro _; simp [insertD]
  | cons y ys ih =>
    intro hl
    rw [List.pairwise_cons] at hl
    obtain ⟨hy, hys⟩ := hl
    rw [insertD]
    by_cases h : key y < key x
    · rw [if_pos h]
      refine List.Pairwise.cons ?_ (List.Pairwise.cons hy hys)
      intro z hz
      rcases List.mem_cons.mp hz with rfl | hz'
      · exact Nat.le_of_lt h
      · exact Nat.le_trans (hy z hz') (Nat.le_of_lt h)
    · rw [if_neg h]
      refine List.Pairwise.cons ?_ (ih hys)
      intro z hz
      rcases (mem_insertD key).mp hz with rfl | hz'
      · exact Nat.le_of_not_lt h
      · exact hy z hz'

/-- The insertion fold keeps the accumulator pairwise-descending. -/
theorem sortD_foldl_pairwise_ge {α : Type} (key : α → Nat) :
    ∀ (l acc : List α), acc.Pairwise (fun a b => key b ≤ key a) →
      (List.foldl (fun a x => insertD key x a) acc l).Pairwise
        (fun a b => key b ≤ key a) := by
  intro l
  induction l with
  | nil => intro acc h; simpa using h
  | cons x xs ih => intro acc h; exact ih _ (insertD_pairwise_ge key x acc h)

/-- `sortD` sorts descending by key. -/
theorem sortD_pairwise_ge {α : Type} (key : α → Nat) (l : List α) :
    (sortD key l).Pairwise (fun a b => key b ≤ key a) :=
  sortD_foldl_pairwise_ge key l [] List.Pairwise.nil

/-- On index-annotated elements, inserting an element with a fresh largest
index preserves the stable descending order. -/
theorem insertD_pairwise_idx {α : Type} (key : α → Nat) (x : Nat × α) :
    ∀ l : List (Nat × α), l.Pairwise (StableRel key) → (∀ y ∈ l, y.1 < x.1) →
      (insertD (keyIdx key) x l).Pairwise (StableRel key) := by
  intro l
  induction l with
  | nil => intro _ _; simp [insertD]
  | cons y ys ih =>
    intro hl hidx
    rw [List.pairwise_cons] at hl
    obtain ⟨hy, hys⟩ := hl
    have hyx : y.1 < x.1 := hidx y (List.mem_cons_self _ _)
    rw [insertD]
    by_cases h : keyIdx key y < keyIdx key x
    · rw [if_pos h]
      refine List.Pairwise.cons ?_ (List.Pairwise.cons hy hys)
      intro z hz
      rcases List.mem_cons.mp hz with rfl | hz'
      · exact Or.inl h
      · rcases hy z hz' with h1 | h2
        · exact Or.inl (Nat.lt_trans h1 h)
        · refine Or.inl ?_
          show key z.2 < key x.2
          rw [← h2.1]
          exact h
    · rw [if_neg h]
      refine List.Pairwise.cons ?_
        (ih hys (fun y' hy' => hidx y' (List.mem_cons_of_mem _ hy')))
      intro z hz
      rcases (mem_insertD (keyIdx key)).mp hz with hzx | hz'
      · subst hzx
        rcases Nat.lt_or_ge (keyIdx key z) (keyIdx key y) with hlt | hge
        · exact Or.inl hlt
        · exact Or.inr ⟨Nat.le_antisymm hge (Nat.le_of_not_lt h), hyx⟩
      · exact hy z hz'

/-- The insertion fold on index-annotated elements keeps the stable
descending order when elements arrive in increasing index order. -/
theorem sortD_foldl_pairwise_idx {α : Type} (key : α → Nat) :
    ∀ (l acc : List (Nat × α)), acc.Pairwise (StableRel key) →
      (∀ y ∈ acc, ∀ x ∈ l, y.1 < x.1) → l.Pairwise (fun a b => a.1 < b.1) →
      (List.foldl (fun a x => insertD (keyIdx key) x a) acc l).Pairwise
        (StableRel key) := by
  intro l
  induction l with
  | nil => intro acc hacc _ _; simpa using hacc
  | cons x xs ih =>
    intro acc hacc hcross hinc
    rw [List.foldl_cons]
    rw [List.pairwise_cons] at hinc
    obtain ⟨hx, hxs⟩ := hinc
    apply ih
    · exact insertD_pairwise_idx key x acc hacc
        (fun y hy => hcross y hy x (List.mem_cons_self _ _))
    · intro y hy z hz
      rcases (mem_insertD (keyIdx key)).mp hy with hyx | hy'
      · subst hyx
        exact hx z hz
      · exact hcross y hy' z (List.mem_cons_of_mem _ hz)
    · exact hxs

/-- Every index in `enumFrom i l` is at least `i`. -/
theorem le_fst_of_mem_enumFrom {α : Type} :
    ∀ (l : List α) (i : Nat) (p : Nat × α), p ∈ List.enumFrom i l → i ≤ p.1 := by
  intro l
  induction l with
  | nil => intro i p h; cases h
  | cons x xs ih =>
    intro i p h
    rw [List.enumFrom_cons] at h
    rcases List.mem_cons.mp h with rfl | h'
    · exact Nat.le_refl i
    · exact Nat.le_trans (Nat.le_succ i) (ih (i + 1) p h')

/-- The indices of `enumFrom` are strictly increasing. -/
theorem pairwise_fst_enumFrom {α : Type} :
    ∀ (l : List α) (i : Nat),
      (List.enumFrom i l).Pairwise (fun a b => a.1 < b.1) := by
  intro l
  induction l with
  | nil => intro i; simp
  | cons x xs ih =>
    intro i
    rw [List.enumFrom_cons]
    refine List.Pairwise.cons ?_ (ih (i + 1))
    intro p hp
    exact Nat.lt_of_lt_of_le (Nat.lt_succ_self i) (le_fst_of_mem_enumFrom xs (i + 1) p hp)

/-- `insertD` on index-annotated elements commutes with dropping the
indices. -/
theorem insertD_map_snd {α : Type} (key : α → Nat) (x : Nat × α) :
    ∀ l : List (Nat × α),
      (insertD (keyIdx key) x l).map Prod.snd = insertD key x.2 (l.map Prod.snd) := by
  intro l
  induction l with
  | nil => rfl
  | cons y ys ih =>
    simp only [List.map_cons, insertD, keyIdx]
    by_cases h : key y.2 < key x.2
    · simp [h]
    · simp [h, ih]

/-- The insertion fold on index-annotated elements commutes with dropping
the indices. -/
theorem sortD_foldl_map_snd {α : Type} (key : α → Nat) :
    ∀ (l acc : List (Nat × α)),
      (List.foldl (fun a x => insertD (keyIdx key) x a) acc l).map Prod.snd =
        List.foldl (fun a x => insertD key x a) (acc.map Prod.snd) (l.map Prod.snd) := by
  intro l
  induction l with
  | nil => intro acc; rfl
  | cons x xs ih =>
    intro acc
    simp only [List.foldl_cons, List.map_cons]
    rw [ih, insertD_map_snd]

/-- Claim C6: the renderer's sort is a permutation of the mapping sorted in
descending size order, and running the same sort on index-annotated entries
shows stability: the result is ordered by strictly larger size first and, on
equal sizes, by original mapping position, and dropping the indices gives
exactly the list the renderer processes. -/
theorem claim6_stable_sort (l : List (String × LangData)) :
    List.Perm (sortLangs l) l ∧
    (sortLangs l).Pairwise (fun a b => b.2.size ≤ a.2.size) ∧
    (sortD (keyIdx langKey) l.enum).map Prod.snd = sortLangs l ∧
    (sortD (keyIdx langKey) l.enum).Pairwise (StableRel langKey) := by
  refine ⟨sortD_perm langKey l, sortD_pairwise_ge langKey l, ?_, ?_⟩
  · rw [sortD, sortD_foldl_map_snd langKey l.enum []]
    rw [List.enum_eq_enumFrom, List.enumFrom_map_snd]
    rfl
  · rw [sortD]
    refine sortD_foldl_pairwise_idx langKey l.enum [] List.Pairwise.nil (by simp) ?_
    rw [List.enum_eq_enumFrom]
    exact pairwise_fst_enumFrom l 0

/-- Claim C1: for a non-empty mapping, entry `i` of the sorted order yields
a progress segment whose width is the first ratio component times the
percentage and whose margin is the second component times the percentage,
the ratio being `{1, 0}` for the last entry, else `{0.99, 0.01}` when the
percentage exceeds 50, else the default `{0.98, 0.02}` — and no other. -/
theorem claim1_ratio_cascade (langs : List (String × LangData)) (hne : langs ≠ [])
    (i : Nat) (e : String × LangData)
    (he : (sortLangs (effectiveLanguages langs))[i]? = some e) :
    (progressSegments langs)[i]? = some
      ⟨e.2.color.getD "#000000",
        (if i = (sortLangs (effectiveLanguages langs)).length - 1 then (1 : ℚ)
         else if 50 < e.2.prop then 99 / 100 else 98 / 100) * e.2.prop,
        (if i = (sortLangs (effectiveLanguages langs)).length - 1 then (0 : ℚ)
         else if 50 < e.2.prop then 1 / 100 else 2 / 100) * e.2.prop⟩ := by
  have hmap : (progressSegments langs)[i]? =
      ((sortLangs (effectiveLanguages langs)).enum[i]?).map
        (fun p => segmentOf (sortLangs (effectiveLanguages langs)).length p.1 p.2) := by
    simp [progressSegments]
  rw [hmap, List.getElem?_enum, he]
  by_cases hlast : i = (sortLangs (effectiveLanguages langs)).length - 1 <;>
    by_cases hprop : 50 < e.2.prop <;>
      simp [segmentOf, ratioOf, hlast, hprop]

/-- Witness for C1 on the spec's two-language example: the dominant
non-final entry (Go at 75 percent) receives ratio `{0.99, 0.01}`. -/
theorem claim1_ratio_cascade_witness :
    (sortLangs (effectiveLanguages
        [("Go", ⟨300, some "#00ADD8", 75⟩), ("Python", ⟨100, some "#3572A5", 25⟩)]))[0]? =
      some ("Go", ⟨300, some "#00ADD8", 75⟩) ∧
    (progressSegments
        [("Go", ⟨300, some "#00ADD8", 75⟩), ("Python", ⟨100, some "#3572A5", 25⟩)])[0]? =
      some ⟨"#00ADD8", (99 / 100 : ℚ) * 75, (1 / 100 : ℚ) * 75⟩ := by
  constructor
  · rfl
  · have h := claim1_ratio_cascade
      [("Go", ⟨300, some "#00ADD8", 75⟩), ("Python", ⟨100, some "#3572A5", 25⟩)]
      (by simp) 0 ("Go", ⟨300, some "#00ADD8", 75⟩) rfl
    simpa [sortLangs, sortD, insertD, effectiveLanguages, langKey] using h

/-- Claim C10: the last-entry rule wins over the dominant-language rule:
the final sorted entry always receives ratio `{1, 0}` (width equal to its
percentage, no margin), and in particular a single language at 100 percent
yields `{1, 0}` rather than `{0.99, 0.01}`. -/
theorem claim10_last_ratio_precedence :
    (∀ (langs : List (String × LangData)) (e : String × LangData), langs ≠ [] →
      (sortLangs (effectiveLanguages langs)).getLast? = some e →
      (progressSegments langs).getLast? = some ⟨e.2.color.getD "#000000", e.2.prop, 0⟩) ∧
    progressSegments [("Solo", ⟨10, none, 100⟩)] = [⟨"#000000", 100, 0⟩] := by
  constructor
  · intro langs e hne hlast
    have hlen : (progressSegments langs).length =
        (sortLangs (effectiveLanguages langs)).length := by
      simp [progressSegments]
    rw [List.getLast?_eq_getElem?] at hlast ⊢
    rw [hlen]
    have hmap : (progressSegments langs)[(sortLangs (effectiveLanguages langs)).length - 1]? =
        ((sortLangs (effectiveLanguages langs)).enum[(sortLangs
            (effectiveLanguages langs)).length - 1]?).map
          (fun p => segmentOf (sortLangs (effectiveLanguages langs)).length p.1 p.2) := by
      simp [progressSegments]
    rw [hmap, List.getElem?_enum, hlast]
    simp [segmentOf, ratioOf]
  · simp [progressSegments, sortLangs, sortD, insertD, effectiveLanguages, segmentOf,
      ratioOf, List.enum, List.enumFrom]

/-- Witness for C10 on the spec's two-language example: the final entry
(Python at 25 percent) gets width 25 and margin 0. -/
theorem claim10_last_ratio_precedence_witness :
    (progressSegments
        [("Go", ⟨300, some "#00ADD8", 75⟩), ("Python", ⟨100, some "#3572A5", 25⟩)]).getLast? =
      some ⟨"#3572A5", (25 : ℚ), 0⟩ := by
  have h := claim10_last_ratio_precedence.1
    [("Go", ⟨300, some "#00ADD8", 75⟩), ("Python", ⟨100, some "#3572A5", 25⟩)]
    ("Python", ⟨100, some "#3572A5", 25⟩) (by simp) rfl
  simpa using h

/-- Every character emitted by the digit renderer is a decimal digit, hence
not an opening brace. -/
theorem digitsRevAux_mem_ne_brace :
    ∀ (fuel n : Nat) (c : Char), c ∈ digitsRevAux fuel n → c ≠ Char.ofNat 123 := by
  intro fuel
  induction fuel with
  | zero => intro n c h; simp [digitsRevAux] at h
  | succ fuel ih =>
    intro n c h
    rw [digitsRevAux] at h
    by_cases h10 : n < 10
    · rw [if_pos h10] at h
      rw [List.mem_singleton] at h
      subst h
      interval_cases n <;> decide
    · rw [if_neg h10] at h
      rcases List.mem_cons.mp h with rfl | h'
      · have hd : n % 10 < 10 := Nat.mod_lt _ (by norm_num)
        generalize hq : n % 10 = d at hd ⊢
        interval_cases d <;> decide
      · exact ih (n / 10) c h'

/-- `group3` only adds separating commas to its input characters. -/
theorem group3_mem_or :
    ∀ (l : List Char) (c : Char), c ∈ group3 l → c ∈ l ∨ c = ','
  | [], c => by simp [group3]
  | [a], c => by simp [group3]; tauto
  | [a, b], c => by simp [group3]; tauto
  | [a, b, d], c => by simp [group3]; tauto
  | a :: b :: d :: e :: rest, c => by
    intro h
    simp only [group3, List.mem_cons] at h ⊢
    rcases h with rfl | rfl | rfl | rfl | h'
    · tauto
    · tauto
    · tauto
    · tauto
    · rcases group3_mem_or (e :: rest) c h' with h2 | h2
      · simp only [List.mem_cons] at h2
        tauto
      · tauto

/-- A thousands-separated count never contains an opening brace. -/
theorem brace_notMem_fmtComma (n : Nat) : Char.ofNat 123 ∉ (fmtComma n).data := by
  intro h
  rw [fmtComma] at h
  rw [List.mem_reverse] at h
  rcases group3_mem_or _ _ h with h1 | h1
  · exact digitsRevAux_mem_ne_brace _ _ _ h1 rfl
  · exact absurd h1 (by decide)

/-- The scanner with a pending skip equals the scanner restarted after
dropping the skipped characters. -/
theorem raAux_skip (pat repl : List Char) :
    ∀ (l : List Char) (k : Nat), raAux pat repl k l = raAux pat repl 0 (l.drop k) := by
  intro l
  induction l with
  | nil => intro k; cases k <;> simp [raAux]
  | cons c rest ih =>
    intro k
    cases k with
    | zero => simp
    | succ j =>
      rw [List.drop_succ_cons, ← ih j]
      simp [raAux]

/-- The scan copies a prefix that cannot start a match (no character of it
equals the pattern head). -/
theorem replaceAll_skip_notMem (c0 : Char) (pt repl : List Char) :
    ∀ (N B : List Char), c0 ∉ N →
      replaceAll (c0 :: pt) repl (N ++ B) = N ++ replaceAll (c0 :: pt) repl B := by
  intro N
  induction N with
  | nil => intro B _; simp
  | cons x N' ih =>
    intro B hN
    have hx : (c0 == x) = false := by
      refine beq_eq_false_iff_ne.mpr ?_
      intro hh
      exact hN (by rw [hh]; exact List.mem_cons_self _ _)
    rw [List.cons_append]
    rw [replaceAll, raAux]
    rw [show ((c0 :: pt).isPrefixOf (x :: (N' ++ B)) && !(c0 :: pt).isEmpty) = false by
      simp [List.isPrefixOf, hx]]
    rw [if_neg (by simp)]
    rw [show raAux (c0 :: pt) repl 0 (N' ++ B) = replaceAll (c0 :: pt) repl (N' ++ B) from rfl]
    rw [ih B (fun hmem => hN (List.mem_cons_of_mem _ hmem))]
    rw [List.cons_append]

/-- The scan at an occurrence of the pattern emits the replacement and
continues after the matched pattern. -/
theorem replaceAll_head_match (c0 : Char) (pt repl B : List Char) :
    replaceAll (c0 :: pt) repl ((c0 :: pt) ++ B) = repl ++ replaceAll (c0 :: pt) repl B := by
  rw [replaceAll]
  rw [show (c0 :: pt) ++ B = c0 :: (pt ++ B) from rfl]
  rw [raAux]
  have hpre : (c0 :: pt).isPrefixOf (c0 :: (pt ++ B)) = true :=
    List.isPrefixOf_iff_prefix.mpr ⟨B, rfl⟩
  rw [if_pos (by simp [hpre])]
  rw [raAux_skip]
  have hlen : (c0 :: pt).length - 1 = pt.length := by simp
  rw [hlen, List.drop_left]
  rfl

/-- A subject without any occurrence of the pattern is copied unchanged,
whatever the replacement. -/
theorem replaceAll_not_contains (pat repl : List Char) :
    ∀ B, containsSub pat B = false → replaceAll pat repl B = B := by
  intro B
  induction B with
  | nil => intro _; rfl
  | cons c rest ih =>
    intro h
    rw [containsSub] at h
    obtain ⟨h1, h2⟩ := Bool.or_eq_false_iff.mp h
    rw [replaceAll, raAux]
    rw [if_neg (by simp [h1])]
    rw [show raAux pat repl 0 rest = replaceAll pat repl rest from rfl, ih h2]

/-- An element absent from both parts is absent from their concatenation. -/
theorem notMem_append {α : Type} {c : α} {A B : List α} (hA : c ∉ A) (hB : c ∉ B) :
    c ∉ A ++ B := by
  intro h
  rcases List.mem_append.mp h with h' | h'
  · exact hA h'
  · exact hB h'

/-- One full substitution step on a template of the shape
`prefix ++ pattern ++ remainder`: when the pattern's head character does not
occur in the prefix and the pattern does not occur in the remainder, exactly
the shown occurrence is replaced, verbatim. -/
theorem replaceAll_template_piece (c0 : Char) (pt repl A B : List Char)
    (hA : c0 ∉ A) (hB : containsSub (c0 :: pt) B = false) :
    replaceAll (c0 :: pt) repl ((A ++ (c0 :: pt)) ++ B) = (A ++ repl) ++ B := by
  rw [List.append_assoc, List.append_assoc]
  rw [replaceAll_skip_notMem c0 pt repl A _ hA, replaceAll_head_match,
    replaceAll_not_contains _ _ _ hB]

/-- Claim C7: on a template holding each placeholder once, the overview
renderer substitutes the name, each count formatted with thousands
separators, the sum of the two lines-changed components, and the size of
the repository collection; and the formatter renders 1234 as "1,234" and
100 + 50 as "150". -/
theorem claim7_overview_formatting :
    (∀ st : StatsData, Char.ofNat 123 ∉ st.name.data →
      overviewSub overviewTestTemplate st =
        st.name ++ "|" ++ fmtComma st.stargazers ++ "|" ++ fmtComma st.forks ++ "|" ++
          fmtComma st.totalContributions ++ "|" ++
          fmtComma (st.linesChanged.1 + st.linesChanged.2) ++ "|" ++
          fmtComma st.views ++ "|" ++ fmtComma st.allRepos.length) ∧
    fmtComma 1234 = "1,234" ∧ fmtComma (100 + 50) = "150" := by
  refine ⟨?_, by decide, by decide⟩
  intro st hname
  have hbar : Char.ofNat 123 ∉ "|".data := by decide
  have s1 : replaceAll (Char.ofNat 123 :: "\x7b name \x7d\x7d".data) st.name.data overviewTestTemplate.data =
      st.name.data ++ "|\x7b\x7b stars \x7d\x7d|\x7b\x7b forks \x7d\x7d|\x7b\x7b contributions \x7d\x7d|\x7b\x7b lines_changed \x7d\x7d|\x7b\x7b views \x7d\x7d|\x7b\x7b repos \x7d\x7d".data := by
    rw [show overviewTestTemplate.data = (Char.ofNat 123 :: "\x7b name \x7d\x7d".data) ++ "|\x7b\x7b stars \x7d\x7d|\x7b\x7b forks \x7d\x7d|\x7b\x7b contributions \x7d\x7d|\x7b\x7b lines_changed \x7d\x7d|\x7b\x7b views \x7d\x7d|\x7b\x7b repos \x7d\x7d".data from rfl]
    rw [replaceAll_head_match, replaceAll_not_contains _ _ _ (by decide)]
  have s2 : replaceAll (Char.ofNat 123 :: "\x7b stars \x7d\x7d".data) (fmtComma st.stargazers).data
      (st.name.data ++ "|\x7b\x7b stars \x7d\x7d|\x7b\x7b forks \x7d\x7d|\x7b\x7b contributions \x7d\x7d|\x7b\x7b lines_changed \x7d\x7d|\x7b\x7b views \x7d\x7d|\x7b\x7b repos \x7d\x7d".data) =
      ((st.name.data ++ "|".data) ++ (fmtComma st.stargazers).data) ++ "|\x7b\x7b forks \x7d\x7d|\x7b\x7b contributions \x7d\x7d|\x7b\x7b lines_changed \x7d\x7d|\x7b\x7b views \x7d\x7d|\x7b\x7b repos \x7d\x7d".data := by
    rw [show "|\x7b\x7b stars \x7d\x7d|\x7b\x7b forks \x7d\x7d|\x7b\x7b contributions \x7d\x7d|\x7b\x7b lines_changed \x7d\x7d|\x7b\x7b views \x7d\x7d|\x7b\x7b repos \x7d\x7d".data = "|".data ++ ((Char.ofNat 123 :: "\x7b stars \x7d\x7d".data) ++ "|\x7b\x7b forks \x7d\x7d|\x7b\x7b contributions \x7d\x7d|\x7b\x7b lines_changed \x7d\x7d|\x7b\x7b views \x7d\x7d|\x7b\x7b repos \x7d\x7d".data) from rfl]
    simp only [← List.append_assoc]
    exact replaceAll_template_piece (Char.ofNat 123) "\x7b stars \x7d\x7d".data (fmtComma st.stargazers).data (st.name.data ++ "|".data) "|\x7b\x7b forks \x7d\x7d|\x7b\x7b contributions \x7d\x7d|\x7b\x7b lines_changed \x7d\x7d|\x7b\x7b views \x7d\x7d|\x7b\x7b repos \x7d\x7d".data (notMem_append hname hbar) (by decide)
  have s3 : replaceAll (Char.ofNat 123 :: "\x7b forks \x7d\x7d".data) (fmtComma st.forks).data
      (((st.name.data ++ "|".data) ++ (fmtComma st.stargazers).data) ++ "|\x7b\x7b forks \x7d\x7d|\x7b\x7b contributions \x7d\x7d|\x7b\x7b lines_changed \x7d\x7d|\x7b\x7b views \x7d\x7d|\x7b\x7b repos \x7d\x7d".data) =
      (((st.name.data ++ "|".data) ++ (fmtComma st.stargazers).data ++ "|".data) ++ (fmtComma st.forks).data) ++ "|\x7b\x7b contributions \x7d\x7d|\x7b\x7b lines_changed \x7d\x7d|\x7b\x7b views \x7d\x7d|\x7b\x7b repos \x7d\x7d".data := by
    rw [show "|\x7b\x7b forks \x7d\x7d|\x7b\x7b contributions \x7d\x7d|\x7b\x7b lines_changed \x7d\x7d|\x7b\x7b views \x7d\x7d|\x7b\x7b repos \x7d\x7d".data = "|".data ++ ((Char.ofNat 123 :: "\x7b forks \x7d\x7d".data) ++ "|\x7b\x7b contributions \x7d\x7d|\x7b\x7b lines_changed \x7d\x7d|\x7b\x7b views \x7d\x7d|\x7b\x7b repos \x7d\x7d".data) from rfl]
    simp only [← List.append_assoc]
    exact replaceAll_template_piece (Char.ofNat 123) "\x7b forks \x7d\x7d".data (fmtComma st.forks).data ((st.name.data ++ "|".data) ++ (fmtComma st.stargazers).data ++ "|".data) "|\x7b\x7b contributions \x7d\x7d|\x7b\x7b lines_changed \x7d\x7d|\x7b\x7b views \x7d\x7d|\x7b\x7b repos \x7d\x7d".data (notMem_append (notMem_append (notMem_append hname hbar) (brace_notMem_fmtComma st.stargazers)) hbar) (by decide)
  have s4 : replaceAll (Char.ofNat 123 :: "\x7b contributions \x7d\x7d".data) (fmtComma st.totalContributions).data
      ((((st.name.data ++ "|".data) ++ (fmtComma st.stargazers).data ++ "|".data) ++ (fmtComma st.forks).data) ++ "|\x7b\x7b contributions \x7d\x7d|\x7b\x7b lines_changed \x7d\x7d|\x7b\x7b views \x7d\x7d|\x7b\x7b repos \x7d\x7d".data) =
      ((((st.name.data ++ "|".data) ++ (fmtComma st.stargazers).data ++ "|".data) ++ (fmtComma st.forks).data ++ "|".data) ++ (fmtComma st.totalContributions).data) ++ "|\x7b\x7b lines_changed \x7d\x7d|\x7b\x7b views \x7d\x7d|\x7b\x7b repos \x7d\x7d".data := by
    rw [show "|\x7b\x7b contributions \x7d\x7d|\x7b\x7b lines_changed \x7d\x7d|\x7b\x7b views \x7d\x7d|\x7b\x7b repos \x7d\x7d".data = "|".data ++ ((Char.ofNat 123 :: "\x7b contributions \x7d\x7d".data) ++ "|\x7b\x7b lines_changed \x7d\x7d|\x7b\x7b views \x7d\x7d|\x7b\x7b repos \x7d\x7d".data) from rfl]
    simp only [← List.append_assoc]
    exact replaceAll_template_piece (Char.ofNat 123) "\x7b contributions \x7d\x7d".data (fmtComma st.totalContributions).data (((st.name.data ++ "|".data) ++ (fmtComma st.stargazers).data ++ "|".data) ++ (fmtComma st.forks).data ++ "|".data) "|\x7b\x7b lines_changed \x7d\x7d|\x7b\x7b views \x7d\x7d|\x7b\x7b repos \x7d\x7d".data (notMem_append (notMem_append (notMem_append (notMem_append (notMem_append hname hbar) (brace_notMem_fmtComma st.stargazers)) hbar) (brace_notMem_fmtComma st.forks)) hbar) (by decide)
  have s5 : replaceAll (Char.ofNat 123 :: "\x7b lines_changed \x7d\x7d".data) (fmtComma (st.linesChanged.1 + st.linesChanged.2)).data
      (((((st.name.data ++ "|".data) ++ (fmtComma st.stargazers).data ++ "|".data) ++ (fmtComma st.forks).data ++ "|".data) ++ (fmtComma st.totalContributions).data) ++ "|\x7b\x7b lines_changed \x7d\x7d|\x7b\x7b views \x7d\x7d|\x7b\x7b repos \x7d\x7d".data) =
      (((((st.name.data ++ "|".data) ++ (fmtComma st.stargazers).data ++ "|".data) ++ (fmtComma st.forks).data ++ "|".data) ++ (fmtComma st.totalContributions).data ++ "|".data) ++ (fmtComma (st.linesChanged.1 + st.linesChanged.2)).data) ++ "|\x7b\x7b views \x7d\x7d|\x7b\x7b repos \x7d\x7d".data := by
    rw [show "|\x7b\x7b lines_changed \x7d\x7d|\x7b\x7b views \x7d\x7d|\x7b\x7b repos \x7d\x7d".data = "|".data ++ ((Char.ofNat 123 :: "\x7b lines_changed \x7d\x7d".data) ++ "|\x7b\x7b views \x7d\x7d|\x7b\x7b repos \x7d\x7d".data) from rfl]
    simp only [← List.append_assoc]
    exact replaceAll_template_piece (Char.ofNat 123) "\x7b lines_changed \x7d\x7d".data (fmtComma (st.linesChanged.1 + st.linesChanged.2)).data ((((st.name.data ++ "|".data) ++ (fmtComma st.stargazers).data ++ "|".data) ++ (fmtComma st.forks).data ++ "|".data) ++ (fmtComma st.totalContributions).data ++ "|".data) "|\x7b\x7b views \x7d\x7d|\x7b\x7b repos \x7d\x7d".data (notMem_append (notMem_append (notMem_append (notMem_append (notMem_append (notMem_append (notMem_append hname hbar) (brace_notMem_fmtComma st.stargazers)) hbar) (brace_notMem_fmtComma st.forks)) hbar) (brace_notMem_fmtComma st.totalContributions)) hbar) (by decide)
  have s6 : replaceAll (Char.ofNat 123 :: "\x7b views \x7d\x7d".data) (fmtComma st.views).data
      ((((((st.name.data ++ "|".data) ++ (fmtComma st.stargazers).data ++ "|".data) ++ (fmtComma st.forks).data ++ "|".data) ++ (fmtComma st.totalContributions).data ++ "|".data) ++ (fmtComma (st.linesChanged.1 + st.linesChanged.2)).data) ++ "|\x7b\x7b views \x7d\x7d|\x7b\x7b repos \x7d\x7d".data) =
      ((((((st.name.data ++ "|".data) ++ (fmtComma st.stargazers).data ++ "|".data) ++ (fmtComma st.forks).data ++ "|".data) ++ (fmtComma st.totalContributions).data ++ "|".data) ++ (fmtComma (st.linesChanged.1 + st.linesChanged.2)).data ++ "|".data) ++ (fmtComma st.views).data) ++ "|\x7b\x7b repos \x7d\x7d".data := by
    rw [show "|\x7b\x7b views \x7d\x7d|\x7b\x7b repos \x7d\x7d".data = "|".data ++ ((Char.ofNat 123 :: "\x7b views \x7d\x7d".data) ++ "|\x7b\x7b repos \x7d\x7d".data) from rfl]
    simp only [← List.append_assoc]
    exact replaceAll_template_piece (Char.ofNat 123) "\x7b views \x7d\x7d".data (fmtComma st.views).data (((((st.name.data ++ "|".data) ++ (fmtComma st.stargazers).data ++ "|".data) ++ (fmtComma st.forks).data ++ "|".data) ++ (fmtComma st.totalContributions).data ++ "|".data) ++ (fmtComma (st.linesChanged.1 + st.linesChanged.2)).data ++ "|".data) "|\x7b\x7b repos \x7d\x7d".data (notMem_append (notMem_append (notMem_append (notMem_append (notMem_append (notMem_append (notMem_append (notMem_append (notMem_append hname hbar) (brace_notMem_fmtComma st.stargazers)) hbar) (brace_notMem_fmtComma st.forks)) hbar) (brace_notMem_fmtComma st.totalContributions)) hbar) (brace_notMem_fmtComma (st.linesChanged.1 + st.linesChanged.2))) hbar) (by decide)
  have s7 : replaceAll (Char.ofNat 123 :: "\x7b repos \x7d\x7d".data) (fmtComma st.allRepos.length).data
      (((((((st.name.data ++ "|".data) ++ (fmtComma st.stargazers).data ++ "|".data) ++ (fmtComma st.forks).data ++ "|".data) ++ (fmtComma st.totalContributions).data ++ "|".data) ++ (fmtComma (st.linesChanged.1 + st.linesChanged.2)).data ++ "|".data) ++ (fmtComma st.views).data) ++ "|\x7b\x7b repos \x7d\x7d".data) =
      (((((((st.name.data ++ "|".data) ++ (fmtComma st.stargazers).data ++ "|".data) ++ (fmtComma st.forks).data ++ "|".data) ++ (fmtComma st.totalContributions).data ++ "|".data) ++ (fmtComma (st.linesChanged.1 + st.linesChanged.2)).data ++ "|".data) ++ (fmtComma st.views).data ++ "|".data) ++ (fmtComma st.allRepos.length).data) ++ ([] : List Char) := by
    rw [show "|\x7b\x7b repos \x7d\x7d".data = "|".data ++ ((Char.ofNat 123 :: "\x7b repos \x7d\x7d".data) ++ ([] : List Char)) from rfl]
    simp only [← List.append_assoc]
    exact replaceAll_template_piece (Char.ofNat 123) "\x7b repos \x7d\x7d".data (fmtComma st.allRepos.length).data ((((((st.name.data ++ "|".data) ++ (fmtComma st.stargazers).data ++ "|".data) ++ (fmtComma st.forks).data ++ "|".data) ++ (fmtComma st.totalContributions).data ++ "|".data) ++ (fmtComma (st.linesChanged.1 + st.linesChanged.2)).data ++ "|".data) ++ (fmtComma st.views).data ++ "|".data) ([] : List Char) (notMem_append (notMem_append (notMem_append (notMem_append (notMem_append (notMem_append (notMem_append (notMem_append (notMem_append (notMem_append (notMem_append hname hbar) (brace_notMem_fmtComma st.stargazers)) hbar) (brace_notMem_fmtComma st.forks)) hbar) (brace_notMem_fmtComma st.totalContributions)) hbar) (brace_notMem_fmtComma (st.linesChanged.1 + st.linesChanged.2))) hbar) (brace_notMem_fmtComma st.views)) hbar) (by decide)
  have t0 : (overviewSub overviewTestTemplate st).data =
      replaceAll (Char.ofNat 123 :: "\x7b repos \x7d\x7d".data) (fmtComma st.allRepos.length).data (replaceAll (Char.ofNat 123 :: "\x7b views \x7d\x7d".data) (fmtComma st.views).data (replaceAll (Char.ofNat 123 :: "\x7b lines_changed \x7d\x7d".data) (fmtComma (st.linesChanged.1 + st.linesChanged.2)).data (replaceAll (Char.ofNat 123 :: "\x7b contributions \x7d\x7d".data) (fmtComma st.totalContributions).data (replaceAll (Char.ofNat 123 :: "\x7b forks \x7d\x7d".data) (fmtComma st.forks).data (replaceAll (Char.ofNat 123 :: "\x7b stars \x7d\x7d".data) (fmtComma st.stargazers).data (replaceAll (Char.ofNat 123 :: "\x7b name \x7d\x7d".data) st.name.data (overviewTestTemplate.data))))))) := rfl
  rw [s1, s2, s3, s4, s5, s6, s7] at t0
  refine String.ext ?_
  rw [t0]
  simp [String.data_append, List.append_assoc]

/-- Witness for C7 at the spec's example stats: the rendered overview is the
expected string, containing "1,234" for stars and "150" for lines changed. -/
theorem claim7_overview_formatting_witness :
    overviewSub overviewTestTemplate
        ⟨"alice", 1234, 56, 7890, (100, 50), 42, ["r1", "r2", "r3"], []⟩ =
      "alice|1,234|56|7,890|150|42|3" ∧
    strIn "1,234" (overviewSub overviewTestTemplate
        ⟨"alice", 1234, 56, 7890, (100, 50), 42, ["r1", "r2", "r3"], []⟩) = true ∧
    strIn "150" (overviewSub overviewTestTemplate
        ⟨"alice", 1234, 56, 7890, (100, 50), 42, ["r1", "r2", "r3"], []⟩) = true := by
  have h := claim7_overview_formatting.1
    ⟨"alice", 1234, 56, 7890, (100, 50), 42, ["r1", "r2", "r3"], []⟩ (by decide)
  refine ⟨?_, ?_, ?_⟩ <;> rw [h] <;> decide

/-- Counterexample to C8 as stated: on a template (which validation would
accept) containing the name placeholder twice, the renderer substitutes both
occurrences, not exactly one — the input holds two occurrences and the
output holds none. -/
theorem claim8_counterexample :
    countOccurStr "\x7b\x7b name \x7d\x7d" "\x7b\x7b name \x7d\x7d\x7b\x7b name \x7d\x7d" = 2 ∧
    overviewSub "\x7b\x7b name \x7d\x7d\x7b\x7b name \x7d\x7d"
      ⟨"Bob", 0, 0, 0, (0, 0), 0, [], []⟩ = "BobBob" ∧
    countOccurStr "\x7b\x7b name \x7d\x7d"
      (overviewSub "\x7b\x7b name \x7d\x7d\x7b\x7b name \x7d\x7d"
        ⟨"Bob", 0, 0, 0, (0, 0), 0, [], []⟩) = 0 := by
  refine ⟨by decide, by decide, by decide⟩


/-- The counter with a pending skip equals the counter restarted after
dropping the skipped characters. -/
theorem coAux_skip (pat : List Char) :
    ∀ (l : List Char) (k : Nat), coAux pat k l = coAux pat 0 (l.drop k) := by
  intro l
  induction l with
  | nil => intro k; cases k <;> simp [coAux]
  | cons c rest ih =>
    intro k
    cases k with
    | zero => simp
    | succ j =>
      rw [List.drop_succ_cons, ← ih j]
      simp [coAux]

/-- A subject with occurrence count zero contains no occurrence at all. -/
theorem countOccur_eq_zero (pat : List Char) (hne : pat ≠ []) :
    ∀ B, countOccur pat B = 0 → containsSub pat B = false := by
  intro B
  induction B with
  | nil =>
    intro _
    rw [containsSub]
    cases pat with
    | nil => exact absurd rfl hne
    | cons p ps => rfl
  | cons c rest ih =>
    intro h
    by_cases hm : (pat.isPrefixOf (c :: rest) && !pat.isEmpty) = true
    · rw [countOccur, coAux, if_pos hm] at h
      omega
    · rw [countOccur, coAux, if_neg hm] at h
      have hnotE : (!pat.isEmpty) = true := by
        cases pat with
        | nil => exact absurd rfl hne
        | cons p ps => rfl
      have hp : pat.isPrefixOf (c :: rest) = false := by
        by_cases hP : pat.isPrefixOf (c :: rest) = true
        · exact absurd ((Bool.and_eq_true _ _).mpr ⟨hP, hnotE⟩) hm
        · exact Bool.eq_false_iff.mpr hP
      rw [containsSub, hp, Bool.false_or]
      exact ih h

/-- A subject whose occurrence count is exactly one decomposes around that
single occurrence, and the scan replaces exactly it, verbatim. -/
theorem replaceAll_single_occurrence (pat repl : List Char) (hne : pat ≠ []) :
    ∀ s, countOccur pat s = 1 →
      ∃ A B, s = A ++ pat ++ B ∧ countOccur pat B = 0 ∧
        replaceAll pat repl s = A ++ repl ++ B := by
  intro s
  induction s with
  | nil => intro h; simp [countOccur, coAux] at h
  | cons c rest ih =>
    intro h
    by_cases hm : (pat.isPrefixOf (c :: rest) && !pat.isEmpty) = true
    · have hcount : countOccur pat (rest.drop (pat.length - 1)) = 0 := by
        rw [countOccur, coAux, if_pos hm, coAux_skip] at h
        rw [countOccur]
        omega
      have hpre : pat <+: (c :: rest) :=
        List.isPrefixOf_iff_prefix.mp ((Bool.and_eq_true _ _).mp hm).1
      obtain ⟨t, ht⟩ := hpre
      have hB : t = rest.drop (pat.length - 1) := by
        have hdrop := congrArg (List.drop pat.length) ht
        rw [List.drop_left] at hdrop
        rw [hdrop]
        cases pat with
        | nil => exact absurd rfl hne
        | cons p ps => simp [List.drop_succ_cons]
      refine ⟨[], t, by simpa using ht.symm, by rw [hB]; exact hcount, ?_⟩
      rw [replaceAll, raAux, if_pos hm, raAux_skip, ← hB]
      have hrest : raAux pat repl 0 t = t := by
        rw [show raAux pat repl 0 t = replaceAll pat repl t from rfl]
        exact replaceAll_not_contains pat repl t
          (countOccur_eq_zero pat hne t (hB ▸ hcount))
      rw [hrest]
      rfl
    · have h' : countOccur pat rest = 1 := by
        rw [countOccur, coAux, if_neg hm] at h
        exact h
      obtain ⟨A', B', hs, hB0, hr⟩ := ih h'
      refine ⟨c :: A', B', by rw [List.cons_append, List.cons_append, ← hs], hB0, ?_⟩
      rw [replaceAll, raAux, if_neg hm]
      rw [show raAux pat repl 0 rest = replaceAll pat repl rest from rfl, hr]
      rfl

/-- Claim C8 as amended: a substitution replaces every left-to-right
occurrence of its token; in particular, when the template contains the
token exactly once, the output is the template with exactly that occurrence
replaced and the computed string inserted verbatim. -/
theorem claim8_amended_single_occurrence (pat repl s : String)
    (hne : pat.data ≠ []) (h1 : countOccurStr pat s = 1) :
    ∃ A B : List Char, s.data = A ++ pat.data ++ B ∧ countOccur pat.data B = 0 ∧
      (reSub pat repl s).data = A ++ repl.data ++ B :=
  replaceAll_single_occurrence pat.data repl.data hne s.data h1

/-- Witness for the amended C8 at a concrete template holding the token
exactly once, with a stray opening brace earlier in the template. -/
theorem claim8_amended_witness :
    ∃ A B : List Char,
      ("\x7bx|\x7b\x7b name \x7d\x7d|y" : String).data =
        A ++ ("\x7b\x7b name \x7d\x7d" : String).data ++ B ∧
      countOccur ("\x7b\x7b name \x7d\x7d" : String).data B = 0 ∧
      (reSub "\x7b\x7b name \x7d\x7d" "Bob" "\x7bx|\x7b\x7b name \x7d\x7d|y").data =
        A ++ ("Bob" : String).data ++ B :=
  claim8_amended_single_occurrence "\x7b\x7b name \x7d\x7d" "Bob" "\x7bx|\x7b\x7b name \x7d\x7d|y"
    (by decide) (by decide)
